import Mathlib

/-!
Shallow embedding of the entropy-engine core of the repository
(notebook `src/data_processing/11_shared-clonotype-properties.ipynb`).

The embedded code:
* `get_sequences` (notebook lines 52-89): per-line pooling of sequences into
  (group, length) buckets — here `parseRow` / `stepRow` / `buildPools` — and
  the per-length downselection that balances the "shared" and "unshared"
  pools — here `downselect`.
* `calculate_entropies` (lines 117-126): transposition of each bucket into
  position columns, trimming 3 positions from each end (`[3:-3]`), and one
  output record per interior column — here `pyZip`, `pySliceTrim`,
  `bucketRecords`, `calculate_entropies` — threading the error `entropy` can
  raise.
* `entropy` (lines 129-138): normalized Shannon entropy of a symbol column —
  here `countsOf`, `np_asarray_py3`, `entropyWith`, `entropy`. The notebook's
  committed kernel is python3 (kernelspec `python3`, language version 3.6.4),
  under which line 133's `np.asarray(Counter(residues).values(),
  dtype=np.float64)` raises `TypeError`: a Python-3 `dict_values` view is not
  a sequence. `entropy` models exactly this reading; the value the later
  lines would compute from the counts — what the function returns under the
  Python-2 reading of `values()` that the `from __future__` header points
  at — is kept as the separately named `entropyValue`, with the bridge
  `entropyWith_py2`.

Machine floats of the source are modelled by real numbers; `np.random.choice`
is modelled by an explicitly passed sampling function.
-/

namespace GrpPaper

/-! ### Raw-row parsing and pooling (`get_sequences`, notebook lines 58-78) -/

/-- Value of a decimal digit character. -/
def digitVal (c : Char) : Nat := c.toNat - '0'.toNat

/-- Natural number denoted by a list of decimal digit characters. -/
def digitsToNat (ds : List Char) : Nat := ds.foldl (fun acc c => 10 * acc + digitVal c) 0

/-- Python `int(s)` on a whitespace-free token: an optional leading minus sign
followed by a nonempty run of digits; `none` models the `ValueError` raised on
any other string. -/
def pyInt (s : String) : Option Int :=
  match s.data with
  | [] => none
  | '-' :: ds => if ds ≠ [] ∧ ds.all Char.isDigit then some (-(digitsToNat ds : Int)) else none
  | ds => if ds.all Char.isDigit then some ((digitsToNat ds : Int)) else none

/-- Tag classification of notebook lines 65-70: `c == 1` is unshared,
`c in range(6, 11)` is shared, anything else is skipped. -/
def classifyTag (c : Int) : Option String :=
  if c = 1 then some "unshared"
  else if 6 ≤ c ∧ c < 11 then some "shared"
  else none

/-- Per-line body of the reading loop (notebook lines 60-77) on an
already-whitespace-split row. Returns `.error tag` when `int(sline[0])`
raises an uncaught `ValueError`, `.ok none` when the line is skipped
(`continue`), and `.ok (some (group, seq))` when the sequence is accepted.
The `sline[3]` access is inside the `try`, so a missing field is a caught
`IndexError` and skips the line; the length filter is `range(7, 15)`. -/
def parseRow (sline : List String) : Except String (Option (String × String)) :=
  match sline with
  | [] => .ok none
  | w0 :: _ =>
    match pyInt w0 with
    | none => .error w0
    | some c =>
      match classifyTag c with
      | none => .ok none
      | some s =>
        match sline.get? 3 with
        | none => .ok none
        | some aa =>
          if 7 ≤ aa.length ∧ aa.length < 15 then .ok (some (s, aa)) else .ok none

/-- Pools of accepted sequences, keyed by group label and sequence length
(the nested dict `seqs` of notebook lines 56-57, as a total function that is
`[]` outside the populated keys). -/
def Pools : Type := String → Nat → List String

/-- The initial empty pools. -/
def emptyPools : Pools := fun _ _ => []

/-- The append `seqs[s][l].append(aa)` of notebook line 75. -/
def appendPool (P : Pools) (s : String) (l : Nat) (aa : String) : Pools :=
  fun s' l' => if s' = s ∧ l' = l then P s' l' ++ [aa] else P s' l'

/-- One iteration of the reading loop: parse the row and either propagate the
uncaught error, leave the pools unchanged, or append the accepted sequence to
the bucket keyed by its group and length. -/
def stepRow (P : Pools) (sline : List String) : Except String Pools :=
  match parseRow sline with
  | .error e => .error e
  | .ok none => .ok P
  | .ok (some (s, aa)) => .ok (appendPool P s aa.length aa)

/-- Fold of the reading loop over the remaining rows, from given pools. -/
def buildFrom (P : Pools) (rows : List (List String)) : Except String Pools :=
  rows.foldlM stepRow P

/-- Pool construction of notebook lines 56-78 for one input file, on
pre-split rows (`line.strip().split()` is the file-format layer). -/
def buildPools (rows : List (List String)) : Except String Pools :=
  buildFrom emptyPools rows

/-! ### Pool balancing (`get_sequences`, notebook lines 79-88) -/

/-- Downselection of notebook lines 83-88 at one length bucket:
`num_seqs = min(len(shared), len(unshared))`; each of the two groups whose
bucket is strictly larger than `num_seqs` is replaced by
`sample bucket num_seqs`, which models `np.random.choice(s, size=num_seqs,
replace=False)`; the other group is left untouched. -/
def downselect (sample : List String → Nat → List String)
    (shared unshared : List String) : List String × List String :=
  let num_seqs := min shared.length unshared.length
  ((if num_seqs < shared.length then sample shared num_seqs else shared),
   (if num_seqs < unshared.length then sample unshared num_seqs else unshared))

/-! ### Normalized Shannon entropy (`entropy`, notebook lines 129-138) -/

/-- Occurrence counts of the distinct symbols of a column: the contents of
the `Counter(residues).values()` view of notebook line 133, before any
array conversion. -/
def countsOf (residues : List Char) : List Nat :=
  residues.dedup.map fun c => residues.count c

/-- Message of the `TypeError` raised by `np.asarray(..., dtype=np.float64)`
on a Python-3 `dict_values` view. -/
def typeErrorMsg : String :=
  "TypeError: float() argument must be a string or a number, not dict_values"

/-- Notebook line 133's conversion `np.asarray(Counter(residues).values(),
dtype=np.float64)` as executed by the committed python3 kernel: the
`dict_values` view is not a sequence in Python 3, so numpy treats it as a
0-d object scalar and the `float64` conversion raises `TypeError` whatever
the counts are. -/
def np_asarray_py3 (_values_view : List Nat) : Except String (List ℝ) :=
  .error typeErrorMsg

/-- The same conversion under the Python-2 reading (where
`Counter(residues).values()` is a plain list): it succeeds and returns the
counts as a float array. -/
def np_asarray_py2 (values_list : List Nat) : Except String (List ℝ) :=
  .ok (values_list.map fun c : ℕ => (c : ℝ))

/-- Probabilities of notebook line 134 from a converted counts array:
`counts[np.nonzero(counts)] / n_residues`. -/
noncomputable def probsOf (counts : List ℝ) (n_residues : ℕ) : List ℝ :=
  (counts.filter fun c => c ≠ 0).map fun c => c / (n_residues : ℝ)

/-- Normalized Shannon entropy of a symbol column, notebook lines 129-138,
parametric in the one interpreter-dependent step, the array conversion of
line 133: a column with at most one element returns `0.` before that line is
reached; otherwise the conversion's outcome decides between the raised error
and the value of lines 134-138. -/
noncomputable def entropyWith (asarray : List Nat → Except String (List ℝ))
    (residues : List Char) : Except String ℝ :=
  if residues.length ≤ 1 then .ok 0
  else
    (asarray (countsOf residues)).map fun counts =>
      if (probsOf counts residues.length).length ≤ 1 then (0 : ℝ)
      else -(((probsOf counts residues.length).map fun p => p * Real.log p).sum) /
        Real.log ((probsOf counts residues.length).length : ℝ)

/-- The source's `entropy` as executed by the committed python3 kernel:
`.ok 0` for columns with at most one element, and the `TypeError` of line
133 for every other column. -/
noncomputable def entropy (residues : List Char) : Except String ℝ :=
  entropyWith np_asarray_py3 residues

/-- The nonzero counts, `counts[np.nonzero(counts)]` of notebook line 134,
read over the natural-number counts. -/
def nzCounts (residues : List Char) : List Nat :=
  (countsOf residues).filter fun c => c ≠ 0

/-- The probabilities `probs` of notebook line 134 over the natural-number
counts: each nonzero count divided by the total number of residues. -/
noncomputable def probs (residues : List Char) : List ℝ :=
  (nzCounts residues).map fun c : ℕ => (c : ℝ) / (residues.length : ℝ)

/-- The value notebook lines 131-138 compute from the counts: what `entropy`
returns under the Python-2 reading of `values()` (lemma `entropyWith_py2`)
and the normalized Shannon entropy the spec describes. Under the committed
python3 kernel the source raises on line 133 before producing it. -/
noncomputable def entropyValue (residues : List Char) : ℝ :=
  if residues.length ≤ 1 then 0
  else if (probs residues).length ≤ 1 then 0
  else -(((probs residues).map fun p => p * Real.log p).sum) /
    Real.log ((probs residues).length : ℝ)

/-! ### Per-position entropy table (`calculate_entropies`, notebook lines 117-126) -/

/-- Number of position columns produced by `zip(*seqs)`: the minimum sequence
length, and `0` for an empty argument list (`zip()` yields nothing). -/
def numCols : List (List Char) → Nat
  | [] => 0
  | l :: ls => ls.foldl (fun m s => min m s.length) l.length

/-- Python `list(zip(*ls))`: the transpose truncated to the shortest row. -/
def pyZip (ls : List (List Char)) : List (List Char) :=
  (List.range (numCols ls)).map fun i => ls.map fun s => s.getD i 'A'

/-- Python slice `xs[t:-t]`: the interior positions, dropping `t` from each
end (the source fixes `t = 3` in `[3:-3]`, notebook line 122). -/
def pySliceTrim (t : Nat) (xs : List (List Char)) : List (List Char) :=
  (xs.drop t).take (xs.length - 2 * t)

/-- One output row of `calculate_entropies` (notebook lines 124-125). -/
structure ERecord where
  sample : String
  seq_type : String
  shannon : ℝ
  cdr3_length : Nat
  shared : String

/-- Records emitted for one (group, length) bucket (notebook lines 121-125):
the loop appends one record per interior position column, propagating the
`TypeError` that `entropy` raises on a multi-element column. -/
noncomputable def bucketRecords (t : Nat) (seq_type s : String) (l : Nat)
    (seqs : List String) : Except String (List ERecord) :=
  (pySliceTrim t (pyZip (seqs.map String.data))).foldlM
    (fun edata residues => (entropy residues).map fun e =>
      edata ++ [{ sample := seq_type ++ " (" ++ s ++ ")", seq_type := seq_type,
                  shannon := e, cdr3_length := l, shared := s }]) []

/-- The entropy table of notebook lines 117-126, with the end trim `t` kept as
a parameter (the source's slice `[3:-3]` is `t = 3`): iterate the groups, then
the lengths of each group, appending the per-bucket records and propagating
the first raised error. The pool snapshot is the association-list view of the
nested dict `seq_dict`. -/
noncomputable def calcEntropiesTrim (t : Nat)
    (seq_dict : List (String × List (Nat × List String))) (seq_type : String) :
    Except String (List ERecord) :=
  seq_dict.foldlM (fun edata g =>
    g.2.foldlM (fun edata2 b =>
      (bucketRecords t seq_type g.1 b.1 b.2).map fun rs => edata2 ++ rs) edata) []

/-- The source's `calculate_entropies`, whose trim is fixed at 3 by the slice
`[3:-3]` of notebook line 122. -/
noncomputable def calculate_entropies
    (seq_dict : List (String × List (Nat × List String))) (seq_type : String) :
    Except String (List ERecord) :=
  calcEntropiesTrim 3 seq_dict seq_type

/-! ### Basic facts about the count/probability lists -/

lemma countsOf_pos {l : List Char} {c : Nat} (hc : c ∈ countsOf l) : 0 < c := by
  simp only [countsOf, List.mem_map] at hc
  obtain ⟨a, ha, rfl⟩ := hc
  exact List.count_pos_iff.mpr (List.mem_dedup.mp ha)

lemma countsOf_le {l : List Char} {c : Nat} (hc : c ∈ countsOf l) : c ≤ l.length := by
  simp only [countsOf, List.mem_map] at hc
  obtain ⟨a, _, rfl⟩ := hc
  exact List.count_le_length a l

lemma nzCounts_eq (l : List Char) : nzCounts l = countsOf l := by
  rw [nzCounts, List.filter_eq_self]
  intro c hc
  simpa using (countsOf_pos hc).ne'

lemma countsOf_sum (l : List Char) : (countsOf l).sum = l.length :=
  List.sum_map_count_dedup_eq_length l

lemma probs_length (l : List Char) : (probs l).length = l.dedup.length := by
  rw [probs, List.length_map, nzCounts_eq, countsOf, List.length_map]

lemma sum_map_div_cast (cs : List ℕ) (n : ℝ) :
    (cs.map fun c : ℕ => (c : ℝ) / n).sum = (cs.sum : ℝ) / n := by
  induction cs with
  | nil => simp
  | cons a t ih =>
    simp only [List.map_cons, List.sum_cons, ih]
    push_cast
    ring

lemma probs_sum {l : List Char} (hl : l ≠ []) : (probs l).sum = 1 := by
  have hn : (0 : ℝ) < (l.length : ℝ) := by
    exact_mod_cast List.length_pos.mpr hl
  rw [probs, nzCounts_eq, sum_map_div_cast, countsOf_sum]
  exact div_self hn.ne'

lemma probs_mem {l : List Char} {p : ℝ} (hp : p ∈ probs l) : 0 < p ∧ p ≤ 1 := by
  rw [probs, nzCounts_eq] at hp
  simp only [List.mem_map] at hp
  obtain ⟨c, hc, rfl⟩ := hp
  have hc0 := countsOf_pos hc
  have hcn := countsOf_le hc
  have hl : l ≠ [] := by
    rintro rfl
    simp [countsOf] at hc
  have hn : (0 : ℝ) < (l.length : ℝ) := by
    exact_mod_cast List.length_pos.mpr hl
  constructor
  · positivity
  · rw [div_le_one hn]
    exact_mod_cast hcn

/-! ### The two entropy bounds -/

lemma sum_map_shift_sub (ps : List ℝ) (f : ℝ → ℝ) (c : ℝ) :
    (ps.map fun p => f p - p * c).sum = (ps.map f).sum - ps.sum * c := by
  induction ps with
  | nil => simp
  | cons q qs ih =>
    simp only [List.map_cons, List.sum_cons, ih]
    ring

lemma sum_map_const_sub (ps : List ℝ) (c : ℝ) :
    (ps.map fun p => c - p).sum = ps.length * c - ps.sum := by
  induction ps with
  | nil => simp
  | cons q qs ih =>
    simp only [List.map_cons, List.sum_cons, ih, List.length_cons]
    push_cast
    ring

lemma sum_map_neg_eq (ps : List ℝ) (f : ℝ → ℝ) :
    (ps.map fun p => -(f p)).sum = -((ps.map f).sum) := by
  induction ps with
  | nil => simp
  | cons q qs ih =>
    simp only [List.map_cons, List.sum_cons, ih]
    ring

lemma sum_mul_log_nonpos {ps : List ℝ} (h : ∀ p ∈ ps, 0 < p ∧ p ≤ 1) :
    (ps.map fun p => p * Real.log p).sum ≤ 0 := by
  have hb : (ps.map fun p => p * Real.log p).sum ≤ (ps.map fun _ => (0 : ℝ)).sum := by
    refine List.sum_le_sum fun p hp => ?_
    have h1 := (h p hp).1
    have h2 : Real.log p ≤ 0 := Real.log_nonpos h1.le (h p hp).2
    exact mul_nonpos_iff.mpr (Or.inl ⟨h1.le, h2⟩)
  simpa using hb

lemma neg_sum_mul_log_le_log_length {ps : List ℝ} (hpos : ∀ p ∈ ps, 0 < p)
    (hsum : ps.sum = 1) :
    -((ps.map fun p => p * Real.log p).sum) ≤ Real.log (ps.length : ℝ) := by
  have hne : ps ≠ [] := by
    rintro rfl
    simp at hsum
  have hk : (0 : ℝ) < (ps.length : ℝ) := by
    exact_mod_cast List.length_pos.mpr hne
  have key : ∀ p ∈ ps, -(p * Real.log p) - p * Real.log (ps.length : ℝ)
      ≤ (ps.length : ℝ)⁻¹ - p := by
    intro p hp
    have hp0 := hpos p hp
    have h1 : Real.log ((p * (ps.length : ℝ))⁻¹) ≤ (p * (ps.length : ℝ))⁻¹ - 1 :=
      Real.log_le_sub_one_of_pos (by positivity)
    have h2 : Real.log ((p * (ps.length : ℝ))⁻¹)
        = -(Real.log p) - Real.log (ps.length : ℝ) := by
      rw [Real.log_inv, Real.log_mul hp0.ne' hk.ne']
      ring
    have h3 : p * Real.log ((p * (ps.length : ℝ))⁻¹)
        ≤ p * ((p * (ps.length : ℝ))⁻¹ - 1) :=
      mul_le_mul_of_nonneg_left h1 hp0.le
    have h4 : p * ((p * (ps.length : ℝ))⁻¹ - 1) = (ps.length : ℝ)⁻¹ - p := by
      field_simp
      ring
    rw [h2] at h3
    rw [h4] at h3
    nlinarith [h3]
  have hsum1 : ((ps.map fun p => -(p * Real.log p) - p * Real.log (ps.length : ℝ)).sum)
      ≤ ((ps.map fun p => (ps.length : ℝ)⁻¹ - p).sum) := List.sum_le_sum key
  have hL := sum_map_shift_sub ps (fun p => -(p * Real.log p)) (Real.log (ps.length : ℝ))
  have hR := sum_map_const_sub ps ((ps.length : ℝ)⁻¹)
  have hmapneg := sum_map_neg_eq ps (fun p => p * Real.log p)
  rw [hL, hmapneg, hsum] at hsum1
  rw [hR, hsum] at hsum1
  have hkk : (ps.length : ℝ) * (ps.length : ℝ)⁻¹ = 1 := mul_inv_cancel₀ hk.ne'
  nlinarith [hsum1]

/-- The intended value of lines 131-138 lies in `[0, 1]` whenever at least
two distinct symbols are observed, and is exactly `0` whenever the column
has at most one element or exactly one distinct symbol appears. -/
lemma entropyValue_range (l : List Char) :
    (2 ≤ l.dedup.length → 0 ≤ entropyValue l ∧ entropyValue l ≤ 1) ∧
    ((l.length ≤ 1 ∨ l.dedup.length = 1) → entropyValue l = 0) := by
  constructor
  · intro h2
    have hlen2 : 2 ≤ l.length := le_trans h2 (List.Sublist.length_le (List.dedup_sublist l))
    have hne : l ≠ [] := by
      rintro rfl
      simp at hlen2
    have hp2 : 2 ≤ (probs l).length := by rw [probs_length]; exact h2
    have hklog : 0 < Real.log ((probs l).length : ℝ) := by
      apply Real.log_pos
      exact_mod_cast hp2.trans_lt' one_lt_two
    have hmem : ∀ p ∈ probs l, 0 < p ∧ p ≤ 1 := fun p hp => probs_mem hp
    have hS : (((probs l).map fun p => p * Real.log p).sum) ≤ 0 := sum_mul_log_nonpos hmem
    have hG : -(((probs l).map fun p => p * Real.log p).sum)
        ≤ Real.log (((probs l).length : ℕ) : ℝ) :=
      neg_sum_mul_log_le_log_length (fun p hp => (hmem p hp).1) (probs_sum hne)
    rw [entropyValue, if_neg (by omega), if_neg (by omega)]
    constructor
    · exact div_nonneg (by linarith) hklog.le
    · rw [div_le_one hklog]
      exact hG
  · rintro (h1 | h1)
    · rw [entropyValue, if_pos h1]
    · by_cases hl : l.length ≤ 1
      · rw [entropyValue, if_pos hl]
      · rw [entropyValue, if_neg hl, if_pos (by rw [probs_length]; omega)]

/-- The intended value of lines 131-138 agrees with the normalized-entropy
formula `-sum(p * ln p) / ln k` for at least two observed classes, and takes
the values `1` at `['A','C','G','T']` and
`-(0.75 ln 0.75 + 0.25 ln 0.25) / ln 2` at `['A','A','A','C']`. -/
lemma entropyValue_formula :
    (∀ l : List Char, 2 ≤ l.dedup.length →
      entropyValue l = -(((probs l).map fun p => p * Real.log p).sum) /
        Real.log (l.dedup.length : ℝ)) ∧
    entropyValue ['A', 'C', 'G', 'T'] = 1 ∧
    entropyValue ['A', 'A', 'A', 'C'] =
      -((3 / 4 : ℝ) * Real.log (3 / 4) + (1 / 4 : ℝ) * Real.log (1 / 4)) / Real.log 2 := by
  have hformula : ∀ l : List Char, 2 ≤ l.dedup.length →
      entropyValue l = -(((probs l).map fun p => p * Real.log p).sum) /
        Real.log (l.dedup.length : ℝ) := by
    intro l h2
    have hlen2 : 2 ≤ l.length := le_trans h2 (List.Sublist.length_le (List.dedup_sublist l))
    have hp : (probs l).length = l.dedup.length := probs_length l
    rw [entropyValue, if_neg (by omega), if_neg (by omega), hp]
  refine ⟨hformula, ?_, ?_⟩
  · have h2 : (2 : ℕ) ≤ (List.dedup ['A', 'C', 'G', 'T']).length := by decide
    have h1 : probs ['A', 'C', 'G', 'T'] = [1 / 4, 1 / 4, 1 / 4, 1 / 4] := by
      rw [probs, nzCounts_eq]
      rw [show countsOf ['A', 'C', 'G', 'T'] = [1, 1, 1, 1] from by decide]
      norm_num
    have hlog : Real.log ((1 : ℝ) / 4) = -Real.log 4 := by
      rw [one_div, Real.log_inv]
    have hne : Real.log (4 : ℝ) ≠ 0 := (Real.log_pos (by norm_num)).ne'
    rw [hformula _ h2, h1]
    simp only [List.map_cons, List.map_nil, List.sum_cons, List.sum_nil]
    rw [hlog, show (List.dedup ['A', 'C', 'G', 'T']).length = 4 from by decide]
    push_cast
    field_simp
    ring
  · have h2 : (2 : ℕ) ≤ (List.dedup ['A', 'A', 'A', 'C']).length := by decide
    have h1 : probs ['A', 'A', 'A', 'C'] = [3 / 4, 1 / 4] := by
      rw [probs, nzCounts_eq]
      rw [show countsOf ['A', 'A', 'A', 'C'] = [3, 1] from by decide]
      norm_num
    rw [hformula _ h2, h1]
    simp only [List.map_cons, List.map_nil, List.sum_cons, List.sum_nil]
    rw [show (List.dedup ['A', 'A', 'A', 'C']).length = 2 from by decide]
    push_cast
    ring_nf

/-! ### The two readings of line 133, and the entropy claims -/

lemma except_map_ok {α β : Type} (a : α) (f : α → β) :
    (Except.ok a : Except String α).map f = .ok (f a) := rfl

lemma except_map_error {α β : Type} (e : String) (f : α → β) :
    (Except.error e : Except String α).map f = .error e := rfl

lemma except_bind_ok {α β : Type} (a : α) (f : α → Except String β) :
    (Except.ok a : Except String α) >>= f = f a := rfl

lemma probsOf_cast (l : List Char) :
    probsOf ((countsOf l).map fun c : ℕ => (c : ℝ)) l.length = probs l := by
  rw [probsOf, probs, nzCounts, List.filter_map, List.map_map]
  congr 1
  refine List.filter_congr fun c hc => ?_
  simp [Function.comp, Nat.cast_ne_zero]

/-- Under the Python-2 reading of `values()` the source returns the intended
value on every column. -/
lemma entropyWith_py2 (l : List Char) :
    entropyWith np_asarray_py2 l = .ok (entropyValue l) := by
  rw [entropyWith, entropyValue, np_asarray_py2]
  by_cases h1 : l.length ≤ 1
  · rw [if_pos h1, if_pos h1]
  · rw [if_neg h1, if_neg h1]
    simp only [except_map_ok, probsOf_cast]

/-- C1: the claim describes the intended normalized entropy, but under the
committed python3 kernel the source raises `TypeError` on line 133 for every
column with at least two elements: at `['A','A']` the claim requires the
value `0` and at `['A','C']` a value in `[0,1]`, and the code raises at both;
the value of lines 131-138 does satisfy the claim at these inputs. -/
theorem C1_entropy_py3_raises :
    entropy ['A', 'A'] = .error typeErrorMsg ∧
    entropy ['A', 'C'] = .error typeErrorMsg ∧
    entropyValue ['A', 'A'] = 0 ∧
    (0 ≤ entropyValue ['A', 'C'] ∧ entropyValue ['A', 'C'] ≤ 1) :=
  ⟨rfl, rfl,
   (entropyValue_range ['A', 'A']).2 (Or.inr (by decide)),
   (entropyValue_range ['A', 'C']).1 (by decide)⟩

/-- C2: the claimed return values are the intended ones, but under the
committed python3 kernel the source raises `TypeError` on line 133 before
the formula of lines 134-138 is evaluated, at `['A','C','G','T']` and
`['A','A','A','C']` alike; the intended value of those lines is exactly the
claimed `1` and `-(0.75 ln 0.75 + 0.25 ln 0.25) / ln 2`. -/
theorem C2_entropy_py3_raises :
    entropy ['A', 'C', 'G', 'T'] = .error typeErrorMsg ∧
    entropy ['A', 'A', 'A', 'C'] = .error typeErrorMsg ∧
    entropyValue ['A', 'C', 'G', 'T'] = 1 ∧
    entropyValue ['A', 'A', 'A', 'C'] =
      -((3 / 4 : ℝ) * Real.log (3 / 4) + (1 / 4 : ℝ) * Real.log (1 / 4)) / Real.log 2 :=
  ⟨rfl, rfl, entropyValue_formula.2.1, entropyValue_formula.2.2⟩

/-- C7: the source's `entropy` is not total under the committed python3
kernel: it returns `.ok 0` for columns with at most one element, but raises
`TypeError` on line 133 for every column with at least two elements, so the
`k <= 1` guard and the division are never even reached. -/
theorem C7_entropy_not_total :
    entropy ([] : List Char) = .ok 0 ∧
    entropy ['A'] = .ok 0 ∧
    ∀ l : List Char, 2 ≤ l.length → entropy l = .error typeErrorMsg := by
  refine ⟨rfl, rfl, fun l hl => ?_⟩
  rw [entropy, entropyWith, if_neg (by omega)]
  rfl

/-- Closed witness instantiating the quantified part of
`C7_entropy_not_total`. -/
theorem C7_entropy_not_total_witness :
    entropy ['A', 'B'] = .error typeErrorMsg :=
  C7_entropy_not_total.2.2 ['A', 'B'] (by decide)

/-! ### Pooling claims -/

/-- The four example raw rows of the spec, pre-split on whitespace. -/
def c3rows : List (List String) :=
  [["1", "x", "x", "AAAAAAA"], ["6", "x", "x", "CCCCCCC"],
   ["3", "x", "x", "GGGGGGG"], ["1", "x", "x", "TT"]]

/-- C3: every raw record is classified by its integer tag (1 to the unshared
group, 6 through 10 to the shared group, anything else skipped), its sequence
field is extracted, sequences whose length lies outside 7 through 14 are
skipped, and accepted sequences are appended to the bucket keyed by group and
length; the four example rows produce exactly the two singleton buckets
`unshared/7 = ["AAAAAAA"]` and `shared/7 = ["CCCCCCC"]`. -/
theorem C3_build_pools :
    (∀ (P : Pools) (t : String) (rest : List String) (c : Int) (aa : String),
      pyInt t = some c → (t :: rest).get? 3 = some aa →
      ((c = 1 → 7 ≤ aa.length → aa.length ≤ 14 →
          stepRow P (t :: rest) = .ok (appendPool P "unshared" aa.length aa)) ∧
       (6 ≤ c → c ≤ 10 → 7 ≤ aa.length → aa.length ≤ 14 →
          stepRow P (t :: rest) = .ok (appendPool P "shared" aa.length aa)) ∧
       (c ≠ 1 → ¬(6 ≤ c ∧ c ≤ 10) → stepRow P (t :: rest) = .ok P) ∧
       (¬(7 ≤ aa.length ∧ aa.length ≤ 14) → stepRow P (t :: rest) = .ok P))) ∧
    (∃ Q : Pools, buildPools c3rows = .ok Q ∧
      Q "unshared" 7 = ["AAAAAAA"] ∧ Q "shared" 7 = ["CCCCCCC"] ∧
      ∀ (s : String) (n : Nat), ¬(s = "unshared" ∧ n = 7) → ¬(s = "shared" ∧ n = 7) →
        Q s n = []) := by
  constructor
  · intro P t rest c aa hc haa
    refine ⟨?_, ?_, ?_, ?_⟩
    · rintro rfl h7 h14
      simp only [stepRow, parseRow, hc, haa, classifyTag, if_true,
        if_pos (⟨h7, by omega⟩ : 7 ≤ aa.length ∧ aa.length < 15)]
    · intro h6 h10 h7 h14
      simp only [stepRow, parseRow, hc, haa, classifyTag,
        if_neg (by omega : ¬c = 1), if_pos (by omega : 6 ≤ c ∧ c < 11),
        if_pos (⟨h7, by omega⟩ : 7 ≤ aa.length ∧ aa.length < 15)]
    · intro h1 h2
      simp only [stepRow, parseRow, hc, haa, classifyTag, if_neg h1,
        if_neg (by omega : ¬(6 ≤ c ∧ c < 11))]
    · intro hout
      by_cases h1 : c = 1
      · subst h1
        simp only [stepRow, parseRow, hc, haa, classifyTag, if_true,
          if_neg (by omega : ¬(7 ≤ aa.length ∧ aa.length < 15))]
      · by_cases h2 : 6 ≤ c ∧ c < 11
        · simp only [stepRow, parseRow, hc, haa, classifyTag, if_neg h1, if_pos h2,
            if_neg (by omega : ¬(7 ≤ aa.length ∧ aa.length < 15))]
        · simp only [stepRow, parseRow, hc, haa, classifyTag, if_neg h1, if_neg h2]
  · refine ⟨appendPool (appendPool emptyPools "unshared" 7 "AAAAAAA") "shared" 7 "CCCCCCC",
      rfl, by decide, by decide, ?_⟩
    intro s n h1 h2
    simp only [appendPool, emptyPools]
    rw [if_neg (by tauto), if_neg (by tauto)]

/-- Closed witness instantiating the quantified part of `C3_build_pools`:
the shared-tag row 6 appends to the shared bucket at length 7. -/
theorem C3_build_pools_witness :
    stepRow emptyPools ["6", "x", "x", "CCCCCCC"] =
      .ok (appendPool emptyPools "shared" ("CCCCCCC" : String).length "CCCCCCC") :=
  ((C3_build_pools.1 emptyPools "6" ["x", "x", "CCCCCCC"] 6 "CCCCCCC"
    (by decide) (by decide)).2.1 (by decide) (by decide) (by decide) (by decide))

/-- C4 counterexample: a row whose first field is not numeric aborts
processing with an error — the following well-formed row is never pooled, so
malformed rows are not always skipped. -/
theorem C4_counterexample :
    buildPools [["x", "x", "x", "AAAAAAA"], ["1", "x", "x", "CCCCCCC"]] = .error "x" := rfl

/-- C4 (amended): a row with a numeric tag but too few fields (no field at
index 3) is skipped and processing continues with the remaining rows; a row
whose first field is non-numeric raises an uncaught error (`int` raises
`ValueError`, only `IndexError` is caught) and is fatal. -/
theorem C4_malformed_rows (P : Pools) (rows : List (List String)) (t : String)
    (rest : List String) (c : Int) :
    (pyInt t = some c → (t :: rest).get? 3 = none →
      buildFrom P ((t :: rest) :: rows) = buildFrom P rows) ∧
    (pyInt t = none → buildFrom P ((t :: rest) :: rows) = .error t) := by
  constructor
  · intro hc haa
    have hstep : stepRow P (t :: rest) = .ok P := by
      simp only [stepRow, parseRow, hc, haa]
      cases classifyTag c <;> rfl
    rw [buildFrom, List.foldlM_cons, hstep]
    rfl
  · intro hc
    have hstep : stepRow P (t :: rest) = .error t := by
      simp only [stepRow, parseRow, hc]
    rw [buildFrom, List.foldlM_cons, hstep]
    rfl

/-- Closed witness instantiating `C4_malformed_rows`: a two-field row with a
numeric tag is skipped, and a non-numeric tag row is fatal. -/
theorem C4_malformed_rows_witness :
    buildFrom emptyPools [["1", "x"], ["6", "x", "x", "CCCCCCC"]] =
      buildFrom emptyPools [["6", "x", "x", "CCCCCCC"]] ∧
    buildFrom emptyPools [["x", "y"]] = .error "x" :=
  ⟨(C4_malformed_rows emptyPools [["6", "x", "x", "CCCCCCC"]] "1" ["x"] 1).1
      (by decide) (by decide),
   (C4_malformed_rows emptyPools [] "x" ["y"] 0).2 (by decide)⟩

/-! ### Balancing claims -/

/-- C5: at each length bucket, the downselection computes the minimum bucket
size `n` over the balanced groups; a group strictly larger than `n` is
replaced by a sample of exactly `n` of its sequences drawn without
replacement (a sub-permutation of the original bucket), and a group at or
below `n` is left unchanged. The sampler models `np.random.choice` with
`replace=False`, so it is assumed to return `n` of its input's elements. -/
theorem C5_balance_pools (sample : List String → Nat → List String)
    (hlen : ∀ s n, n ≤ s.length → (sample s n).length = n)
    (hsub : ∀ s n, (sample s n).Subperm s)
    (shared unshared : List String) :
    ((downselect sample shared unshared).1.length = min shared.length unshared.length ∧
     (downselect sample shared unshared).2.length = min shared.length unshared.length) ∧
    ((downselect sample shared unshared).1.Subperm shared ∧
     (downselect sample shared unshared).2.Subperm unshared) ∧
    (shared.length ≤ min shared.length unshared.length →
      (downselect sample shared unshared).1 = shared) ∧
    (unshared.length ≤ min shared.length unshared.length →
      (downselect sample shared unshared).2 = unshared) := by
  simp only [downselect]
  refine ⟨⟨?_, ?_⟩, ⟨?_, ?_⟩, ?_, ?_⟩
  · by_cases h : min shared.length unshared.length < shared.length
    · rw [if_pos h]
      exact hlen shared _ (min_le_left _ _)
    · rw [if_neg h]
      omega
  · by_cases h : min shared.length unshared.length < unshared.length
    · rw [if_pos h]
      exact hlen unshared _ (min_le_right _ _)
    · rw [if_neg h]
      omega
  · by_cases h : min shared.length unshared.length < shared.length
    · rw [if_pos h]
      exact hsub shared _
    · rw [if_neg h]
  · by_cases h : min shared.length unshared.length < unshared.length
    · rw [if_pos h]
      exact hsub unshared _
    · rw [if_neg h]
  · intro h
    rw [if_neg (by omega)]
  · intro h
    rw [if_neg (by omega)]

/-- Closed witness instantiating `C5_balance_pools` with the take-prefix
sampler: a 10-element unshared bucket against a 2-element shared bucket is
cut to 2 elements, and the shared bucket is left unchanged. -/
theorem C5_balance_pools_witness :
    (downselect (fun s n => s.take n) ["t1", "t2"]
      ["s1", "s2", "s3", "s4", "s5", "s6", "s7", "s8", "s9", "s10"]).2.length = 2 ∧
    (downselect (fun s n => s.take n) ["t1", "t2"]
      ["s1", "s2", "s3", "s4", "s5", "s6", "s7", "s8", "s9", "s10"]).1 = ["t1", "t2"] := by
  have h := C5_balance_pools (fun s n => s.take n)
    (fun s n hn => by simpa [List.length_take] using Nat.min_eq_left hn)
    (fun s n => (List.take_sublist n s).subperm
      ) ["t1", "t2"] ["s1", "s2", "s3", "s4", "s5", "s6", "s7", "s8", "s9", "s10"]
  exact ⟨by simpa using h.1.2, h.2.2.1 (by decide)⟩

/-- The interior slice of an empty column list is empty. -/
lemma pySliceTrim_nil (t : Nat) : pySliceTrim t ([] : List (List Char)) = [] := by
  simp [pySliceTrim]

/-- Records emitted for an empty bucket: no sequences means no position
columns, hence no output rows and no entropy call that could raise. -/
lemma bucketRecords_nil (t : Nat) (st s : String) (l : Nat) :
    bucketRecords t st s l [] = .ok [] := by
  unfold bucketRecords
  rw [show pyZip (([] : List String).map String.data) = [] from rfl, pySliceTrim_nil]
  rfl

/-- C8: when one of the balanced groups is empty at a length bucket, the
minimum is `0`, both buckets come out empty, and the downstream entropy table
for such a bucket is empty rather than an error. -/
theorem C8_balance_empty (sample : List String → Nat → List String)
    (hlen : ∀ s n, n ≤ s.length → (sample s n).length = n)
    (shared unshared : List String) (h : shared = [] ∨ unshared = []) :
    (downselect sample shared unshared).1 = [] ∧
    (downselect sample shared unshared).2 = [] ∧
    bucketRecords 3 "observed" "shared" 7 (downselect sample shared unshared).1 = .ok [] := by
  have hmin : min shared.length unshared.length = 0 := by
    rcases h with h | h <;> simp [h]
  have h1 : (downselect sample shared unshared).1 = [] := by
    simp only [downselect, hmin]
    by_cases hs : 0 < shared.length
    · rw [if_pos hs]
      exact List.length_eq_zero.mp (hlen shared 0 (Nat.zero_le _))
    · rw [if_neg hs]
      exact List.length_eq_zero.mp (by omega)
  have h2 : (downselect sample shared unshared).2 = [] := by
    simp only [downselect, hmin]
    by_cases hs : 0 < unshared.length
    · rw [if_pos hs]
      exact List.length_eq_zero.mp (hlen unshared 0 (Nat.zero_le _))
    · rw [if_neg hs]
      exact List.length_eq_zero.mp (by omega)
  exact ⟨h1, h2, by rw [h1, bucketRecords_nil]⟩

/-- Closed witness instantiating `C8_balance_empty`. -/
theorem C8_balance_empty_witness :
    (downselect (fun s n => s.take n) [] ["a", "b"]).1 = [] ∧
    (downselect (fun s n => s.take n) [] ["a", "b"]).2 = [] ∧
    bucketRecords 3 "observed" "shared" 7 (downselect (fun s n => s.take n) [] ["a", "b"]).1
      = .ok [] :=
  C8_balance_empty (fun s n => s.take n)
    (fun s n hn => by simpa [List.length_take] using Nat.min_eq_left hn)
    [] ["a", "b"] (Or.inl rfl)

/-! ### Entropy-table claims -/

lemma foldl_min_const {l : Nat} : ∀ ls : List (List Char),
    (∀ x ∈ ls, x.length = l) → ls.foldl (fun m s => min m s.length) l = l := by
  intro ls
  induction ls with
  | nil => intro _; rfl
  | cons b bs ih =>
    intro h
    have hb : b.length = l := h b (List.mem_cons_self _ _)
    simp only [List.foldl_cons, hb, min_self]
    exact ih fun x hx => h x (List.mem_cons_of_mem _ hx)

lemma numCols_const {seqs : List String} {l : Nat} (hne : seqs ≠ [])
    (hlen : ∀ q ∈ seqs, q.length = l) : numCols (seqs.map String.data) = l := by
  cases seqs with
  | nil => exact absurd rfl hne
  | cons a t =>
    have ha : a.data.length = l := hlen a (List.mem_cons_self _ _)
    simp only [List.map_cons, numCols, ha]
    exact foldl_min_const (t.map String.data) fun x hx => by
      obtain ⟨q, hq, rfl⟩ := List.mem_map.mp hx
      exact hlen q (List.mem_cons_of_mem _ hq)

lemma pyZip_length (ls : List (List Char)) : (pyZip ls).length = numCols ls := by
  rw [pyZip, List.length_map, List.length_range]

lemma pySliceTrim_length (t : Nat) (xs : List (List Char)) :
    (pySliceTrim t xs).length = xs.length - 2 * t := by
  rw [pySliceTrim, List.length_take, List.length_drop]
  omega

/-- The record-appending loop succeeds when every column's entropy call
returns `.ok 0`, producing one record per column after the initial prefix. -/
lemma foldlM_records_ok {α β : Type} (h : α → Except String ℝ) (r : ℝ → β) :
    ∀ (xs : List α) (init : List β), (∀ x ∈ xs, h x = .ok 0) →
      xs.foldlM (fun acc x => (h x).map fun e => acc ++ [r e]) init =
        .ok (init ++ xs.map fun _ => r 0) := by
  intro xs
  induction xs with
  | nil =>
    intro init _
    simp only [List.foldlM_nil, List.map_nil, List.append_nil]
    rfl
  | cons a tl ih =>
    intro init hall
    rw [List.foldlM_cons, hall a (List.mem_cons_self _ _), except_map_ok, except_bind_ok,
      ih (init ++ [r 0]) fun x hx => hall x (List.mem_cons_of_mem _ hx)]
    simp

/-- C6: the slice `[t:-t]` enumerates exactly the `l - 2 t` interior
position indices in `[t, l - t)` and nothing is emitted when `l ≤ 2 t`; a
one-sequence bucket does emit one record per interior position (each column
has a single element, so `entropy` returns `.ok 0` before line 133); but
under the committed python3 kernel a bucket with two or more sequences
raises `TypeError` at its first interior column's entropy call and emits no
records, as at the concrete two-sequence length-7 bucket. -/
theorem C6_interior_positions_py3 (t : Nat) (st s : String) (l : Nat)
    (seqs : List String) (hne : seqs ≠ []) (hlen : ∀ q ∈ seqs, q.length = l) :
    (pySliceTrim t (pyZip (seqs.map String.data))).length = l - 2 * t ∧
    (l ≤ 2 * t → bucketRecords t st s l seqs = .ok []) ∧
    (∀ q : String, q.length = l → ∃ rs, bucketRecords t st s l [q] = .ok rs ∧
      rs.length = l - 2 * t) ∧
    bucketRecords 3 "observed" "shared" 7 ["AAAAAAA", "CCCCCCC"] = .error typeErrorMsg := by
  have hcols : (pySliceTrim t (pyZip (seqs.map String.data))).length = l - 2 * t := by
    rw [pySliceTrim_length, pyZip_length, numCols_const hne hlen]
  refine ⟨hcols, ?_, ?_, ?_⟩
  · intro hle
    have h0 : pySliceTrim t (pyZip (seqs.map String.data)) = [] :=
      List.eq_nil_of_length_eq_zero (by omega)
    unfold bucketRecords
    rw [h0]
    rfl
  · intro q hq
    have hone : ∀ residues ∈ pySliceTrim t (pyZip ([q].map String.data)),
        entropy residues = .ok 0 := by
      intro residues hres
      rw [pySliceTrim] at hres
      have hmem : residues ∈ pyZip ([q].map String.data) :=
        List.drop_subset _ _ (List.take_subset _ _ hres)
      rw [pyZip] at hmem
      obtain ⟨i, _, rfl⟩ := List.mem_map.mp hmem
      unfold entropy entropyWith
      rw [if_pos (by simp)]
    refine ⟨(pySliceTrim t (pyZip ([q].map String.data))).map fun _ =>
      { sample := st ++ " (" ++ s ++ ")", seq_type := st, shannon := 0,
        cdr3_length := l, shared := s }, ?_, ?_⟩
    · unfold bucketRecords
      simpa using foldlM_records_ok entropy
        (fun e => ({ sample := st ++ " (" ++ s ++ ")", seq_type := st, shannon := e,
                     cdr3_length := l, shared := s } : ERecord))
        (pySliceTrim t (pyZip ([q].map String.data))) [] hone
    · rw [List.length_map, pySliceTrim_length, pyZip_length,
        numCols_const (by simp) (by simpa using hq)]
  · rfl

/-- Closed witness instantiating `C6_interior_positions_py3` at trim 3: a
one-sequence length-7 bucket yields exactly one record, a length-6 bucket
yields none. -/
theorem C6_interior_positions_py3_witness :
    (∃ rs, bucketRecords 3 "observed" "shared" 7 ["AAAAAAA"] = .ok rs ∧
      rs.length = 7 - 2 * 3) ∧
    bucketRecords 3 "observed" "shared" 6 ["AAAAAA"] = .ok [] := by
  have h7 := C6_interior_positions_py3 3 "observed" "shared" 7 ["AAAAAAA"]
    (by decide) (by decide)
  have h6 := C6_interior_positions_py3 3 "observed" "shared" 6 ["AAAAAA"]
    (by decide) (by decide)
  exact ⟨h7.2.2.1 "AAAAAAA" (by decide), h6.2.1 (by norm_num)⟩

/-- C9: the entropy table is a pure function of the pool snapshot — equal
snapshots and provenance labels give identical output tables, so running it
twice on the same snapshot yields the same result. -/
theorem C9_deterministic (d₁ d₂ : List (String × List (Nat × List String)))
    (st₁ st₂ : String) (hd : d₁ = d₂) (hst : st₁ = st₂) :
    calculate_entropies d₁ st₁ = calculate_entropies d₂ st₂ := by
  rw [hd, hst]

/-- Closed witness instantiating `C9_deterministic`. -/
theorem C9_deterministic_witness :
    calculate_entropies [("shared", [(7, ["AAAAAAA"])])] "observed" =
      calculate_entropies [("shared", [(7, ["AAAAAAA"])])] "observed" :=
  C9_deterministic _ _ _ _ rfl rfl

/-- C10: a (group, length) bucket that is present but holds zero sequences
contributes zero records — the transpose of an empty sequence list has no
position columns — and removing such a bucket from the pool snapshot leaves
the entropy table unchanged, with no error. -/
theorem C10_present_empty_bucket (t : Nat) (st g : String) (l : Nat)
    (rest : List (Nat × List String)) (ds : List (String × List (Nat × List String))) :
    bucketRecords t st g l [] = .ok [] ∧
    pyZip ([].map String.data) = [] ∧
    calcEntropiesTrim t ((g, (l, []) :: rest) :: ds) st =
      calcEntropiesTrim t ((g, rest) :: ds) st := by
  refine ⟨bucketRecords_nil t st g l, rfl, ?_⟩
  simp only [calcEntropiesTrim, List.foldlM_cons, bucketRecords_nil, except_map_ok,
    except_bind_ok, List.nil_append, List.append_nil]

end GrpPaper
